import Mathlib

/-!
Verification development for the video-download session manager.

The embedding models, from the repository sources:
* the progress parser and simulated-progress timer of the main download
  route (`src/unnamed/part_001`): `P1.parseProgress`, `P1.simulationTick`;
* the process `close` and `error` handlers of both download-route variants
  (`src/unnamed/part_001` and `src/app/api/download/route.ts`):
  `P1.closeHandler`, `P1.errorHandler`, `RT.closeHandler`;
* the one-shot artifact retrieval (`GET ?action=file`): `P1.getFile`;
* the database connector (`src/lib/mongodb.ts`): `connectToDatabase`,
  and the route handlers' availability logic: `RT.getDecision`,
  `RT.postDecision`, `P1.postDecision`;
* the metadata quality derivation (`src/unnamed/part_000`):
  `Meta.availableQualities`.

Numbers: JavaScript floating-point percentages are modelled as rationals
(`ℚ`); millisecond clock readings as `ℕ`.  Strings are modelled with Lean
`String`/`List Char`; the JavaScript regular expressions of the progress
parser are implemented character by character with leftmost-match
semantics (greedy digit runs; shortening a greedy `\d+` run can never
make these patterns succeed, so maximal-run matching is exact).
-/

/-- Character class of JavaScript regex `\s` (the whitespace characters
    that occur in tool output). -/
def isWsChar (c : Char) : Bool :=
  c = ' ' || c = '\t' || c = '\n' || c = '\r' || c = '\x0b' || c = '\x0c'

/-- Substring test on character lists: JavaScript `String.includes`. -/
def containsSeq (pat : List Char) : List Char → Bool
  | [] => pat.isEmpty
  | c :: rest => pat.isPrefixOf (c :: rest) || containsSeq pat rest

/-- JavaScript `output.includes(pat)`. -/
def sContains (s pat : String) : Bool :=
  containsSeq pat.toList s.toList

/-- JavaScript `name.startsWith(pat)`. -/
def sStarts (s pat : String) : Bool :=
  pat.toList.isPrefixOf s.toList

/-- Numeric value of a digit run (decimal). -/
def digitsVal (ds : List Char) : ℕ :=
  ds.foldl (fun a c => 10 * a + (c.toNat - '0'.toNat)) 0

/-- Match the regex fragment `(\d+(?:\.\d+)?)%` at the head of the input,
    returning the captured value (as `parseFloat` would read it) and the
    rest of the input after the `%`. -/
def matchNumPctAt (s : List Char) : Option (ℚ × List Char) :=
  let ds := s.takeWhile Char.isDigit
  let r1 := s.dropWhile Char.isDigit
  if ds.isEmpty then none
  else
    match r1 with
    | '.' :: r2 =>
      let fs := r2.takeWhile Char.isDigit
      let r3 := r2.dropWhile Char.isDigit
      if fs.isEmpty then none
      else
        match r3 with
        | '%' :: r4 =>
          some ((digitsVal ds : ℚ) + (digitsVal fs : ℚ) / ((10 : ℚ) ^ fs.length), r4)
        | _ => none
    | '%' :: r2 => some ((digitsVal ds : ℚ), r2)
    | _ => none

/-- Match the regex fragment `(\d+)%` at the head of the input. -/
def matchIntPctAt (s : List Char) : Option ℚ :=
  let ds := s.takeWhile Char.isDigit
  match s.dropWhile Char.isDigit with
  | '%' :: _ => if ds.isEmpty then none else some ((digitsVal ds : ℚ))
  | _ => none

/-- Leftmost-match scan: try the head matcher at each position, first
    success wins (JavaScript `String.match` semantics). -/
def firstMatch (f : List Char → Option ℚ) : List Char → Option ℚ
  | [] => f []
  | c :: rest =>
    match f (c :: rest) with
    | some v => some v
    | none => firstMatch f rest

/-- The literal `[download]` of the yt-dlp progress lines. -/
def dlTag : List Char := "[download]".toList

/-- Head match for `/\[download\]\s+(\d+(?:\.\d+)?)%/`. -/
def p1At (s : List Char) : Option ℚ :=
  if dlTag.isPrefixOf s then
    let r := s.drop dlTag.length
    if (r.takeWhile isWsChar).isEmpty then none
    else (matchNumPctAt (r.dropWhile isWsChar)).map Prod.fst
  else none

/-- Head match for `/\[download\]\s+(\d+(?:\.\d+)?)%\s+of/`. -/
def p2At (s : List Char) : Option ℚ :=
  if dlTag.isPrefixOf s then
    let r := s.drop dlTag.length
    if (r.takeWhile isWsChar).isEmpty then none
    else
      match matchNumPctAt (r.dropWhile isWsChar) with
      | some (v, r4) =>
        if (r4.takeWhile isWsChar).isEmpty then none
        else if ("of".toList).isPrefixOf (r4.dropWhile isWsChar) then some v else none
      | none => none
  else none

/-- Head match for `/(\d+(?:\.\d+)?)%\s+of/`. -/
def p3At (s : List Char) : Option ℚ :=
  match matchNumPctAt s with
  | some (v, r4) =>
    if (r4.takeWhile isWsChar).isEmpty then none
    else if ("of".toList).isPrefixOf (r4.dropWhile isWsChar) then some v else none
  | none => none

/-- Head match for `/(\d+(?:\.\d+)?)%/`. -/
def p4At (s : List Char) : Option ℚ :=
  (matchNumPctAt s).map Prod.fst

/-- The five-pattern cascade of `parseProgress` (part_001 lines 362-374):
    each pattern is tried over the whole chunk only if the previous ones
    found no match anywhere. -/
def extractPct (s : List Char) : Option ℚ :=
  match firstMatch p1At s with
  | some v => some v
  | none =>
    match firstMatch p2At s with
    | some v => some v
    | none =>
      match firstMatch p3At s with
      | some v => some v
      | none =>
        match firstMatch p4At s with
        | some v => some v
        | none => firstMatch matchIntPctAt s

/-- Session status enum of the schema (`src/unnamed/part_002`) and of the
    TypeScript union type: `downloading`, `completed`, `error`. -/
inductive Status
  | downloading
  | completed
  | error
deriving DecidableEq, Repr

/-- The stored session record (fields used by the lifecycle handlers;
    `contentType` and `filename` are fixed at creation). -/
structure Sess where
  status : Status
  progress : ℚ
  error : Option String
  tempFile : String
  contentType : String
  filename : String
deriving DecidableEq, Repr

/-- Per-session constants fixed at creation: `tempBaseName` and the full
    requested output name `tempFile` (directory component elided: all
    names live in the session's downloads directory). -/
structure Cfg where
  base : String
  tempFile : String
deriving DecidableEq, Repr

namespace P1

/-- Mutable state of one download session in `src/unnamed/part_001`:
    the stored record (`db`), the in-memory document field
    `session.progress` as captured at creation (`localProgress` — note
    `DownloadSession.updateOne` writes the store but never this field),
    the closure variables `lastRealProgress` and `simulationStep`, the
    two timers, the downloads-directory contents and the kill flag. -/
structure LifeState where
  db : Sess
  localProgress : ℚ
  lastRealProgress : ℕ
  simulationStep : ℕ
  timerActive : Bool
  timeoutActive : Bool
  files : List String
  killed : Bool
deriving DecidableEq, Repr

/-- The staircase of part_001 lines 393-400: on download activity with no
    numeric progress, advance through 10, 25, 50, 75, 90. -/
def staircaseVal (p : ℚ) : ℚ :=
  if p < 10 then 10
  else if p < 25 then 25
  else if p < 50 then 50
  else if p < 75 then 75
  else if p < 100 then 90
  else p

/-- The `newProgress` value computed by `parseProgress` (part_001 lines
    359-400) before the update-if-changed step, as a function of the
    chunk and of `session.progress` (the captured local value). -/
def mainNewProgress (out : String) (localP : ℚ) : ℚ :=
  let p0 :=
    match extractPct out.toList with
    | some v => max localP v
    | none => localP
  let p1 :=
    if sContains out "[download]" && sContains out "Destination:" then max p0 5 else p0
  let p2 :=
    if sContains out "[download]" && sContains out "100%" then 100 else p1
  let p3 :=
    if sContains out "has already been downloaded" then 100 else p2
  if p3 = localP && sContains out "[download]" then staircaseVal localP else p3

/-- `parseProgress` of part_001 (lines 357-439), invoked on each stdout
    and stderr chunk: computes `newProgress`, writes the store and resets
    the simulation counters when it differs from `session.progress`, then
    applies the two forced-completion writes. -/
def parseProgress (out : String) (now : ℕ) (s : LifeState) : LifeState :=
  let newP := mainNewProgress out s.localProgress
  let s1 :=
    if newP ≠ s.localProgress then
      { s with db := { s.db with progress := min newP 100 },
               lastRealProgress := now, simulationStep := 0 }
    else s
  let s2 :=
    if sContains out "Merging formats" || sContains out "Deleting original file" then
      { s1 with db := { s1.db with progress := 100 } }
    else s1
  if sContains out "[download] 100%" && sContains out "in " then
    { s2 with db := { s2.db with progress := 100 } }
  else s2

/-- One tick of the `setInterval` body installed by
    `startProgressSimulation` (part_001 lines 324-352). -/
def simulationTick (now : ℕ) (s : LifeState) : LifeState :=
  if s.timerActive then
    if now - s.lastRealProgress > 5000 then
      let stp := s.simulationStep + 1
      let simulated :=
        if stp = 1 ∧ s.localProgress < 25 then 25
        else if stp = 2 ∧ s.localProgress < 50 then 50
        else if stp = 3 ∧ s.localProgress < 75 then 75
        else if 4 ≤ stp ∧ s.localProgress < 90 then 90
        else s.localProgress
      let s' := { s with simulationStep := stp }
      if simulated > s.localProgress then
        { s' with db := { s'.db with progress := simulated } }
      else s'
    else s
  else s

/-- `${code}` interpolation of the exit code in the error message. -/
def codeStr : Option Int → String
  | some n => toString n
  | none => "null"

/-- Resolution of the actual output file in the close handler (part_001
    lines 466-481): the exact requested path if present, otherwise the
    first directory entry starting with the base name, otherwise the
    requested path. -/
def actualTempFile (cfg : Cfg) (files : List String) : String :=
  if cfg.tempFile ∈ files then cfg.tempFile
  else
    match files.find? (fun f => sStarts f cfg.base) with
    | some f => f
    | none => cfg.tempFile

/-- Error message written by the close handler on failure. -/
def closeErrMsg (code : Option Int) (fileExists : Bool) : String :=
  "Download failed with code " ++ codeStr code ++ (if fileExists then "" else " (no output file)")

/-- The `ytdlp.on close` handler of part_001 (lines 453-525): clear both
    timers, resolve the actual output file, and finalize the session. -/
def closeHandler (cfg : Cfg) (code : Option Int) (s : LifeState) : LifeState :=
  let s0 := { s with timeoutActive := false, timerActive := false }
  let actual := actualTempFile cfg s0.files
  if (code = some 0 ∨ code = none) ∧ actual ∈ s0.files then
    { s0 with db := { s0.db with status := .completed, progress := 100, tempFile := actual } }
  else
    { s0 with
        db := { s0.db with status := .error,
                           error := some (closeErrMsg code (actual ∈ s0.files)) },
        files := if actual ∈ s0.files then s0.files.erase actual else s0.files }

/-- The `ytdlp.on error` (spawn error) handler of part_001 (lines
    527-566): clear both timers, record the error, and delete every file
    in the downloads directory that starts with the base name. -/
def errorHandler (cfg : Cfg) (msg : String) (s : LifeState) : LifeState :=
  { s with
      timeoutActive := false, timerActive := false,
      db := { s.db with status := .error, error := some ("Process error: " ++ msg) },
      files := s.files.filter (fun f => !sStarts f cfg.base) }

/-- External events driving one session's lifecycle: an output chunk
    handed to the parser, a simulation-timer tick, the 30-minute ceiling
    timer firing (it only kills the process), process close with an exit
    code, a spawn error, and the external tool creating or removing a
    file in the downloads directory. -/
inductive Event
  | parse (out : String) (now : ℕ)
  | tick (now : ℕ)
  | timeoutFire
  | close (code : Option Int)
  | spawnError (msg : String)
  | fsPut (name : String)
  | fsDel (name : String)
deriving DecidableEq, Repr

/-- One lifecycle step of the part_001 session manager. -/
def step (cfg : Cfg) (s : LifeState) : Event → LifeState
  | .parse out now => parseProgress out now s
  | .tick now => simulationTick now s
  | .timeoutFire => if s.timeoutActive then { s with killed := true } else s
  | .close code => closeHandler cfg code s
  | .spawnError msg => errorHandler cfg msg s
  | .fsPut n => { s with files := if n ∈ s.files then s.files else s.files ++ [n] }
  | .fsDel n => { s with files := s.files.erase n }

/-- Session state right after `DownloadSession.create` and `spawn`
    (status `downloading`, progress 0, both timers armed). -/
def initState (cfg : Cfg) : LifeState :=
  { db := { status := .downloading, progress := 0, error := none, tempFile := cfg.tempFile,
            contentType := "video/mp4", filename := "download.mp4" },
    localProgress := 0, lastRealProgress := 0, simulationStep := 0,
    timerActive := true, timeoutActive := true, files := [], killed := false }

/-- Run a sequence of lifecycle events from a state. -/
def runFrom (cfg : Cfg) (s : LifeState) (t : List Event) : LifeState :=
  t.foldl (step cfg) s

/-- Run a sequence of lifecycle events from the initial state. -/
def run (cfg : Cfg) (t : List Event) : LifeState :=
  runFrom cfg (initState cfg) t

end P1

/-- `connectToDatabase` of `src/lib/mongodb.ts`: resolves with the (non
    null) mongoose connection on success and throws on failure — by the
    code's own comment it throws instead of falling back to in-memory
    storage; it never resolves `null`.  The success value is modelled as
    `Option Unit` to record the `db !== null` test the route performs. -/
def connectToDatabase (available : Bool) : Except String (Option Unit) :=
  if available then .ok (some ()) else .error "MongoDB Atlas connection failed"

/-- Association-list lookup standing in for `findOne with sessionId` /
    `Map.get`. -/
def lookupSess (store : List (String × Sess)) (id : String) : Option Sess :=
  (store.find? (fun p => p.1 = id)).map Prod.snd

/-- How a retrieval stream terminates: full read (the `end` event), a
    stream error, or client disconnect (neither `end` nor `error`). -/
inductive StreamEnd
  | ended
  | errored
  | disconnected
deriving DecidableEq, Repr

/-- Response of `GET ?action=file`. -/
inductive RetResp
  | fileStream (contentType filename : String)
  | notReady
  | sessionNotFound
  | inaccessible
deriving DecidableEq, Repr

namespace P1

/-- `GET ?action=file` of part_001 (lines 64-121): look up the session,
    refuse when not completed or no file path, 404 when the file is
    inaccessible, otherwise stream it; the unlink and record delete are
    registered only on the stream's `end` event (lines 90-98), the
    `error` handler only logs. -/
def getFile (store : List (String × Sess)) (files : List String) (id : String)
    (outcome : StreamEnd) : RetResp × List (String × Sess) × List String :=
  match lookupSess store id with
  | none => (.sessionNotFound, store, files)
  | some sess =>
    if sess.status = .completed ∧ sess.tempFile ≠ "" then
      if sess.tempFile ∈ files then
        match outcome with
        | .ended =>
          (.fileStream sess.contentType sess.filename, store.eraseP (fun p => p.1 = id),
            files.erase sess.tempFile)
        | _ => (.fileStream sess.contentType sess.filename, store, files)
      else (.inaccessible, store, files)
    else (.notReady, store, files)

end P1

namespace P1

/-- `filesize || Math.round(duration * bitrate / 8)` of part_001 lines
    195-214: the tool-reported size when truthy, otherwise the bitrate
    estimate (`Math.round` on a rational with denominator 8 equals
    adding 4 before the integer division). -/
def sizeOrEstimate (duration : ℕ) (filesize : Option ℕ) (bitrate : ℕ) : ℕ :=
  match filesize with
  | some n => if n = 0 then (duration * bitrate + 4) / 8 else n
  | none => (duration * bitrate + 4) / 8

/-- Probe result of the `--dump-json` pre-flight (fields the POST handler
    reads). -/
structure VideoInfo where
  duration : ℕ
  filesize : Option ℕ
deriving DecidableEq, Repr

/-- Estimated download size per selector (part_001 lines 192-214); an
    unrecognized selector leaves the initial 0. -/
def estimatedSize (quality : String) (info : VideoInfo) : ℕ :=
  if quality = "2160p" then sizeOrEstimate info.duration info.filesize 2000000
  else if quality = "1440p" then sizeOrEstimate info.duration info.filesize 1200000
  else if quality = "1080p" then sizeOrEstimate info.duration info.filesize 800000
  else if quality = "720p" then sizeOrEstimate info.duration info.filesize 500000
  else if quality = "480p" then sizeOrEstimate info.duration info.filesize 300000
  else if quality = "audio" then (info.duration * 128000 + 4) / 8
  else 0

/-- Format expression per selector (part_001 lines 231-254). -/
def formatString (quality : String) : String :=
  if quality = "2160p" then "best[height<=2160]"
  else if quality = "1440p" then "best[height<=1440]"
  else if quality = "1080p" then "best[height<=1080]"
  else if quality = "720p" then "best[height<=720]"
  else if quality = "480p" then "best[height<=480]"
  else if quality = "audio" then "bestaudio"
  else "best"

end P1

/-- `quality === 'audio' ? 'audio/mpeg' : 'video/mp4'` (both route
    variants). -/
def contentTypeOf (quality : String) : String :=
  if quality = "audio" then "audio/mpeg" else "video/mp4"

/-- `quality === 'audio' ? 'mp3' : 'mp4'` (both route variants). -/
def fileExtensionOf (quality : String) : String :=
  if quality = "audio" then "mp3" else "mp4"

/-- Outcome of the create-download POST handler up to spawning the tool. -/
inductive CreateResult
  | badRequest (msg : String)
  | tooLarge (size : ℕ)
  | serverError
  | started (formatExpr contentType filename : String)
deriving DecidableEq, Repr

/-- `MAX_FILE_SIZE` (2 GB) of part_001 line 217. -/
def maxFileSize : ℕ := 2 * 1024 * 1024 * 1024

namespace P1

/-- The part_001 POST handler's decision (lines 130-311) as a function of
    the request body and the pre-flight probe result (the probe itself is
    an external call; a missing or falsy body field is the empty
    string, matching JavaScript truthiness on strings). -/
def postDecision (url quality : String) (info : VideoInfo) : CreateResult :=
  if url = "" ∨ quality = "" then .badRequest "URL and quality are required"
  else if maxFileSize < estimatedSize quality info then .tooLarge (estimatedSize quality info)
  else .started (formatString quality) (contentTypeOf quality)
    ("download." ++ fileExtensionOf quality)

end P1

namespace RT

/-- Format expression per selector in `src/app/api/download/route.ts`
    (lines 127-148). -/
def formatString (quality : String) : String :=
  if quality = "2160p" then "bestvideo[height<=2160]+bestaudio/best[height<=2160]"
  else if quality = "1440p" then "bestvideo[height<=1440]+bestaudio/best[height<=1440]"
  else if quality = "1080p" then "bestvideo[height<=1080]+bestaudio/best[height<=1080]"
  else if quality = "720p" then "bestvideo[height<=720]+bestaudio/best[height<=720]"
  else if quality = "480p" then "bestvideo[height<=480]+bestaudio/best[height<=480]"
  else if quality = "audio" then "bestaudio[ext=m4a]/bestaudio[ext=mp3]/bestaudio/best"
  else "bestvideo+bestaudio/best"

/-- The route.ts POST handler's decision (lines 111-196): the outer catch
    turns a connect failure into a 500, then request validation, then
    the static selector mapping. -/
def postDecision (available : Bool) (url quality : String) : CreateResult :=
  match connectToDatabase available with
  | .error _ => .serverError
  | .ok _ =>
    if url = "" ∨ quality = "" then .badRequest "URL and quality are required"
    else .started (formatString quality) (contentTypeOf quality)
      ("download." ++ fileExtensionOf quality)

/-- The `ytdlp.on close` handler of route.ts (lines 323-369): completion
    is decided by the exit code alone (`code === 0`), with no check that
    the output file exists and no artifact-path update; on failure the
    exact requested path is unlinked when present. -/
def closeHandler (code : Option Int) (tempFile : String) (db : Sess)
    (files : List String) : Sess × List String :=
  if code = some 0 then
    ({ db with status := .completed, progress := 100 }, files)
  else
    ({ db with status := .error,
               error := some ("Download failed with code " ++ P1.codeStr code) },
      if tempFile ∈ files then files.erase tempFile else files)

/-- Poll / retrieval responses of the route.ts GET handler. -/
inductive GetResp
  | progressInfo (status : Status) (progress : ℚ) (error : Option String)
  | fileAction
  | idRequired
  | notFound
  | invalidAction
  | internalError
deriving DecidableEq, Repr

/-- The route.ts GET handler (lines 41-109): `connectToDatabase` throwing
    lands in the outer catch (500); otherwise `isMongoDBAvailable` is
    `db !== null`, which selects the MongoDB store or the in-memory
    fallback map. -/
def getDecision (available : Bool) (mongoStore fallbackStore : List (String × Sess))
    (id : Option String) (action : Option String) : GetResp :=
  match connectToDatabase available with
  | .error _ => .internalError
  | .ok db =>
    let isMongoDBAvailable := db.isSome
    match id with
    | none => .idRequired
    | some i =>
      match (if isMongoDBAvailable then lookupSess mongoStore i else lookupSess fallbackStore i) with
      | none => .notFound
      | some s =>
        if action = some "progress" then .progressInfo s.status s.progress s.error
        else if action = some "file" then .fileAction
        else .invalidAction

end RT

namespace Meta

/-- One entry of `videoInfo.formats` as read by `src/unnamed/part_000`
    (lines 81-93): a possibly missing `height` (0 is falsy and skipped)
    and a possibly missing audio-codec string. -/
structure VFormat where
  height : Option ℕ
  acodec : Option String
deriving DecidableEq, Repr

/-- The tier cascade of part_000 lines 83-87: a height is bucketed to the
    highest threshold it meets; below 480 no tier is added. -/
def tierOfHeight (h : ℕ) : Option String :=
  if 2160 ≤ h then some "2160p"
  else if 1440 ≤ h then some "1440p"
  else if 1080 ≤ h then some "1080p"
  else if 720 ≤ h then some "720p"
  else if 480 ≤ h then some "480p"
  else none

/-- Tier contributed by one format (`if format.height` guards falsy 0). -/
def formatTier (f : VFormat) : Option String :=
  match f.height with
  | some h => if h = 0 then none else tierOfHeight h
  | none => none

/-- `f.acodec && f.acodec !== 'none'` (part_000 line 91): the codec must
    be present, non-empty (truthiness) and different from the literal
    string `none`. -/
def hasAudioCodec (f : VFormat) : Bool :=
  match f.acodec with
  | some c => !(c = "") && !(c = "none")
  | none => false

/-- Set insertion preserving first-insertion order (JavaScript `Set`). -/
def addUniq (l : List String) (x : String) : List String :=
  if x ∈ l then l else l ++ [x]

/-- The tier set collected by the `formats.forEach` loop, in insertion
    order. -/
def collectTiers (fs : List VFormat) : List String :=
  fs.foldl (fun acc f =>
    match formatTier f with
    | some t => addUniq acc t
    | none => acc) []

/-- The fixed sort order of part_000 line 102. -/
def orderIdx : String → ℕ
  | "2160p" => 0
  | "1440p" => 1
  | "1080p" => 2
  | "720p" => 3
  | "480p" => 4
  | "audio" => 5
  | _ => 6

/-- Comparator relation of the `availableQualities` sort. -/
def qOrder (a b : String) : Prop := orderIdx a ≤ orderIdx b

instance : DecidableRel qOrder := fun a b => Nat.decLe (orderIdx a) (orderIdx b)

instance : IsTotal String qOrder := ⟨fun a b => Nat.le_total (orderIdx a) (orderIdx b)⟩

instance : IsTrans String qOrder := ⟨fun _ _ _ => Nat.le_trans⟩

/-- `availableQualities` of part_000 (lines 79-104): the deduplicated
    tier set, with `audio` added when some format has a usable audio
    codec, sorted by the fixed tier order (the comparator keys are
    distinct on the set's members, so any comparison sort returns the
    same list; insertion sort stands in for `Array.prototype.sort`). -/
def availableQualities (fs : List VFormat) : List String :=
  let tiers := collectTiers fs
  let withAudio := if fs.any hasAudioCodec then addUniq tiers "audio" else tiers
  List.insertionSort qOrder withAudio

/-- The worked example of the spec: heights 360, 480, 720, 1080 with
    audio present on one format. -/
def demoFormats : List VFormat :=
  [{ height := some 360, acodec := some "none" },
   { height := some 480, acodec := some "none" },
   { height := some 720, acodec := some "none" },
   { height := some 1080, acodec := some "mp4a.40.2" }]

end Meta

namespace P1

/-- Is the event a process-close event? -/
def isCloseEvt : Event → Bool
  | .close _ => true
  | _ => false

/-- Is the event a spawn-error event? -/
def isSpawnErrEvt : Event → Bool
  | .spawnError _ => true
  | _ => false

/-- Is the event the external tool writing a file that shares the
    session's base name? -/
def isBasePut (base : String) : Event → Bool
  | .fsPut n => sStarts n base
  | _ => false

/-- Events that are neither close nor spawn error. -/
def notTerminalEvt (e : Event) : Bool :=
  !isCloseEvt e && !isSpawnErrEvt e

/-- Realizable event sequences for one session, reflecting the Node.js
    process-event contract: `close` fires at most once and nothing that
    writes the status can follow it (the stdio streams end before
    `close`, the spawn-`error` event precedes any `close`, and the only
    `kill` call sits in the ceiling timer, which the close handler
    clears); after a spawn error the tool never ran, so no file sharing
    the session's base name is ever written. -/
def validTrace (base : String) : List Event → Bool
  | [] => true
  | e :: rest =>
    (if isCloseEvt e then rest.all notTerminalEvt else true) &&
    ((if isSpawnErrEvt e then rest.all (fun x => !isBasePut base x) else true) &&
      validTrace base rest)

/-- No file in the directory shares the session's base name. -/
def NoBaseFiles (base : String) (fs : List String) : Prop :=
  ∀ f ∈ fs, sStarts f base = false

theorem parseProgress_files (out : String) (now : ℕ) (s : LifeState) :
    (parseProgress out now s).files = s.files := by
  unfold parseProgress
  dsimp only
  split_ifs <;> rfl

theorem parseProgress_status (out : String) (now : ℕ) (s : LifeState) :
    (parseProgress out now s).db.status = s.db.status := by
  unfold parseProgress
  dsimp only
  split_ifs <;> rfl

theorem simulationTick_files (now : ℕ) (s : LifeState) :
    (simulationTick now s).files = s.files := by
  unfold simulationTick
  dsimp only
  split_ifs <;> rfl

theorem simulationTick_status (now : ℕ) (s : LifeState) :
    (simulationTick now s).db.status = s.db.status := by
  unfold simulationTick
  dsimp only
  split_ifs <;> rfl

theorem step_status_of_notTerminal (cfg : Cfg) (s : LifeState) (e : Event)
    (he : notTerminalEvt e = true) : (step cfg s e).db.status = s.db.status := by
  cases e with
  | parse out now => exact parseProgress_status out now s
  | tick now => exact simulationTick_status now s
  | timeoutFire => simp only [step]; split_ifs <;> rfl
  | close code => simp [notTerminalEvt, isCloseEvt] at he
  | spawnError msg => simp [notTerminalEvt, isSpawnErrEvt] at he
  | fsPut n => rfl
  | fsDel n => rfl

theorem runFrom_status_of_notTerminal (cfg : Cfg) :
    ∀ (l : List Event) (s : LifeState), l.all notTerminalEvt = true →
      (runFrom cfg s l).db.status = s.db.status := by
  intro l
  induction l with
  | nil => intro s _; rfl
  | cons e rest ih =>
    intro s hall
    rw [List.all_cons, Bool.and_eq_true] at hall
    show (runFrom cfg (step cfg s e) rest).db.status = s.db.status
    rw [ih (step cfg s e) hall.2, step_status_of_notTerminal cfg s e hall.1]

theorem step_noBase (cfg : Cfg) (s : LifeState) (e : Event)
    (he : isBasePut cfg.base e = false) (hnb : NoBaseFiles cfg.base s.files) :
    NoBaseFiles cfg.base (step cfg s e).files := by
  cases e with
  | parse out now => rw [step, parseProgress_files]; exact hnb
  | tick now => rw [step, simulationTick_files]; exact hnb
  | timeoutFire =>
    simp only [step]
    split_ifs <;> exact hnb
  | close code =>
    simp only [step, closeHandler]
    split_ifs with h1 h2
    · exact hnb
    · intro f hf
      exact hnb f (List.mem_of_mem_erase hf)
    · exact hnb
  | spawnError msg =>
    intro f hf
    simp only [step, errorHandler, List.mem_filter] at hf
    simpa using hf.2
  | fsPut n =>
    simp only [isBasePut] at he
    simp only [step]
    split_ifs with h
    · exact hnb
    · intro f hf
      rcases List.mem_append.mp hf with h1 | h1
      · exact hnb f h1
      · simp only [List.mem_singleton] at h1
        subst h1
        exact he
  | fsDel n =>
    intro f hf
    exact hnb f (List.mem_of_mem_erase hf)

theorem closeHandler_error_of_noBase (cfg : Cfg) (code : Option Int) (s : LifeState)
    (hb : sStarts cfg.tempFile cfg.base = true) (hnb : NoBaseFiles cfg.base s.files) :
    (closeHandler cfg code s).db.status = .error := by
  have htf : cfg.tempFile ∉ s.files := by
    intro hmem
    rw [hnb cfg.tempFile hmem] at hb
    exact Bool.false_ne_true hb
  have hfind : s.files.find? (fun f => sStarts f cfg.base) = none := by
    rw [List.find?_eq_none]
    intro f hf
    simp [hnb f hf]
  have hact : actualTempFile cfg s.files = cfg.tempFile := by
    unfold actualTempFile
    rw [if_neg htf, hfind]
  unfold closeHandler
  simp only
  rw [if_neg]
  intro hcon
  exact htf (hact ▸ hcon.2)

theorem errorHandler_status (cfg : Cfg) (msg : String) (s : LifeState) :
    (errorHandler cfg msg s).db.status = .error := rfl

theorem errorHandler_noBase (cfg : Cfg) (msg : String) (s : LifeState) :
    NoBaseFiles cfg.base (errorHandler cfg msg s).files := by
  intro f hf
  simp only [errorHandler, List.mem_filter] at hf
  simpa using hf.2

theorem runFrom_error_stable (cfg : Cfg) (hb : sStarts cfg.tempFile cfg.base = true) :
    ∀ (l : List Event) (s : LifeState),
      validTrace cfg.base l = true →
      l.all (fun x => !isBasePut cfg.base x) = true →
      NoBaseFiles cfg.base s.files →
      s.db.status = .error →
      (runFrom cfg s l).db.status = .error := by
  intro l
  induction l with
  | nil => intro s _ _ _ hst; exact hst
  | cons e rest ih =>
    intro s hv hall hnb hst
    rw [List.all_cons, Bool.and_eq_true] at hall
    simp only [validTrace, Bool.and_eq_true] at hv
    show (runFrom cfg (step cfg s e) rest).db.status = .error
    cases e with
    | close code =>
      have hnt : rest.all notTerminalEvt = true := by
        have := hv.1
        simpa [isCloseEvt] using this
      rw [runFrom_status_of_notTerminal cfg rest _ hnt]
      exact closeHandler_error_of_noBase cfg code s hb hnb
    | spawnError msg =>
      refine ih _ hv.2.2 hall.2 ?_ ?_
      · exact errorHandler_noBase cfg msg s
      · exact errorHandler_status cfg msg s
    | parse out now =>
      refine ih _ hv.2.2 hall.2 ?_ ?_
      · exact step_noBase cfg s _ rfl hnb
      · rw [show step cfg s (.parse out now) = parseProgress out now s from rfl,
          parseProgress_status]; exact hst
    | tick now =>
      refine ih _ hv.2.2 hall.2 ?_ ?_
      · exact step_noBase cfg s _ rfl hnb
      · rw [show step cfg s (.tick now) = simulationTick now s from rfl,
          simulationTick_status]; exact hst
    | timeoutFire =>
      refine ih _ hv.2.2 hall.2 ?_ ?_
      · exact step_noBase cfg s .timeoutFire rfl hnb
      · rw [step_status_of_notTerminal cfg s .timeoutFire rfl]; exact hst
    | fsPut n =>
      refine ih _ hv.2.2 hall.2 ?_ ?_
      · refine step_noBase cfg s (.fsPut n) ?_ hnb
        have := hall.1
        simp only [isBasePut] at this ⊢
        simpa using this
      · rw [step_status_of_notTerminal cfg s (.fsPut n) rfl]; exact hst
    | fsDel n =>
      refine ih _ hv.2.2 hall.2 ?_ ?_
      · exact step_noBase cfg s (.fsDel n) rfl hnb
      · rw [step_status_of_notTerminal cfg s (.fsDel n) rfl]; exact hst

end P1

namespace P1

theorem runFrom_completed_of_no_close (cfg : Cfg) :
    ∀ (l : List Event) (s : LifeState), l.all (fun x => !isCloseEvt x) = true →
      (runFrom cfg s l).db.status = .completed → s.db.status = .completed := by
  intro l
  induction l with
  | nil => intro s _ h; exact h
  | cons e rest ih =>
    intro s hall hc
    rw [List.all_cons, Bool.and_eq_true] at hall
    have hstep := ih (step cfg s e) hall.2 hc
    cases e with
    | close code => exact absurd hall.1 (by simp [isCloseEvt])
    | spawnError msg =>
      rw [show step cfg s (.spawnError msg) = errorHandler cfg msg s from rfl,
        errorHandler_status] at hstep
      exact absurd hstep (by simp)
    | parse out now =>
      rw [step_status_of_notTerminal cfg s (.parse out now) rfl] at hstep; exact hstep
    | tick now =>
      rw [step_status_of_notTerminal cfg s (.tick now) rfl] at hstep; exact hstep
    | timeoutFire =>
      rw [step_status_of_notTerminal cfg s .timeoutFire rfl] at hstep; exact hstep
    | fsPut n =>
      rw [step_status_of_notTerminal cfg s (.fsPut n) rfl] at hstep; exact hstep
    | fsDel n =>
      rw [step_status_of_notTerminal cfg s (.fsDel n) rfl] at hstep; exact hstep

theorem validTrace_cons (base : String) (e : Event) (rest : List Event)
    (h : validTrace base (e :: rest) = true) : validTrace base rest = true := by
  simp only [validTrace, Bool.and_eq_true] at h
  exact h.2.2

theorem validTrace_close_clause (base : String) :
    ∀ (a : List Event) (c : Option Int) (r : List Event),
      validTrace base (a ++ Event.close c :: r) = true →
      r.all notTerminalEvt = true := by
  intro a
  induction a with
  | nil =>
    intro c r h
    simp only [List.nil_append, validTrace, Bool.and_eq_true] at h
    simpa [isCloseEvt] using h.1
  | cons e a' ih =>
    intro c r h
    exact ih c r (validTrace_cons base e _ h)

theorem validTrace_spawn_clause (base : String) :
    ∀ (a : List Event) (m : String) (r : List Event),
      validTrace base (a ++ Event.spawnError m :: r) = true →
      r.all (fun x => !isBasePut base x) = true := by
  intro a
  induction a with
  | nil =>
    intro m r h
    simp only [List.nil_append, validTrace, Bool.and_eq_true] at h
    simpa [isSpawnErrEvt] using h.2.1
  | cons e a' ih =>
    intro m r h
    exact ih m r (validTrace_cons base e _ h)

theorem validTrace_append_right (base : String) :
    ∀ (a b : List Event), validTrace base (a ++ b) = true → validTrace base b = true := by
  intro a
  induction a with
  | nil => intro b h; exact h
  | cons e a' ih =>
    intro b h
    exact ih b (validTrace_cons base e _ h)

theorem runFrom_append (cfg : Cfg) (s : LifeState) (x y : List Event) :
    runFrom cfg s (x ++ y) = runFrom cfg (runFrom cfg s x) y :=
  List.foldl_append _ _ _ _

end P1

/-- C2: for every session, once the stored status has become `completed`
    or `error`, no later operation of the session's lifecycle (progress
    parser, simulation-timer tick, ceiling-timer firing, process close
    handler, spawn-error handler, or tool file-system activity) changes
    it to any other value, over every realizable event sequence; the
    status type itself has exactly the three states `downloading`
    (initial), `completed` and `error`. -/
theorem c2_status_terminal_stable (cfg : Cfg) (hb : sStarts cfg.tempFile cfg.base = true)
    (t1 t2 : List P1.Event)
    (hv : P1.validTrace cfg.base (t1 ++ t2) = true)
    (ht : (P1.run cfg t1).db.status = .completed ∨ (P1.run cfg t1).db.status = .error) :
    (P1.run cfg (t1 ++ t2)).db.status = (P1.run cfg t1).db.status := by
  classical
  rw [P1.run, P1.runFrom_append]
  by_cases hc : t1.all (fun x => !P1.isCloseEvt x) = true
  · -- no close event in t1: the terminal status came from a spawn error
    have hncomp : (P1.run cfg t1).db.status ≠ .completed := by
      intro h
      have h0 := P1.runFrom_completed_of_no_close cfg t1 (P1.initState cfg) hc h
      simp [P1.initState] at h0
    have herr : (P1.run cfg t1).db.status = .error := ht.resolve_left hncomp
    have hnt : ¬ t1.all P1.notTerminalEvt = true := by
      intro hall
      have h0 := P1.runFrom_status_of_notTerminal cfg t1 (P1.initState cfg) hall
      rw [P1.run] at herr
      rw [h0] at herr
      simp [P1.initState] at herr
    obtain ⟨e, he_mem, he⟩ : ∃ e ∈ t1, P1.notTerminalEvt e = false := by
      by_contra hno
      push_neg at hno
      apply hnt
      rw [List.all_eq_true]
      intro x hx
      cases hbx : P1.notTerminalEvt x
      · exact absurd hbx (hno x hx)
      · rfl
    have hnc : P1.isCloseEvt e = false := by
      rw [List.all_eq_true] at hc
      simpa using hc e he_mem
    have hspawn : P1.isSpawnErrEvt e = true := by
      simp only [P1.notTerminalEvt, hnc, Bool.not_false, Bool.true_and,
        Bool.not_eq_false'] at he
      exact he
    obtain ⟨m, rfl⟩ : ∃ m, e = P1.Event.spawnError m := by
      cases e <;> simp [P1.isSpawnErrEvt] at hspawn
      case spawnError m => exact ⟨m, rfl⟩
    obtain ⟨a, b, rfl⟩ := List.append_of_mem he_mem
    have hre : (a ++ P1.Event.spawnError m :: b) ++ t2 =
        a ++ P1.Event.spawnError m :: (b ++ t2) := by
      simp
    rw [hre] at hv
    have hnbp : (b ++ t2).all (fun x => !P1.isBasePut cfg.base x) = true :=
      P1.validTrace_spawn_clause cfg.base a m (b ++ t2) hv
    have hvr : P1.validTrace cfg.base (b ++ t2) = true := by
      have hre2 : a ++ P1.Event.spawnError m :: (b ++ t2) =
          (a ++ [P1.Event.spawnError m]) ++ (b ++ t2) := by simp
      rw [hre2] at hv
      exact P1.validTrace_append_right cfg.base _ _ hv
    set s2 : P1.LifeState :=
      P1.errorHandler cfg m (P1.runFrom cfg (P1.initState cfg) a) with hs2
    have hrun1 : P1.run cfg (a ++ P1.Event.spawnError m :: b) = P1.runFrom cfg s2 b := by
      rw [P1.run, P1.runFrom_append]
      rfl
    have hfinal : (P1.runFrom cfg s2 (b ++ t2)).db.status = .error := by
      refine P1.runFrom_error_stable cfg hb (b ++ t2) s2 hvr ?_ ?_ ?_
      · rw [List.all_eq_true] at hnbp ⊢
        intro x hx
        exact hnbp x hx
      · exact P1.errorHandler_noBase cfg m _
      · exact P1.errorHandler_status cfg m _
    have herr2 : (P1.runFrom cfg s2 b).db.status = .error := by
      rw [← hrun1]; exact herr
    show (P1.runFrom cfg (P1.run cfg (a ++ P1.Event.spawnError m :: b)) t2).db.status =
      (P1.run cfg (a ++ P1.Event.spawnError m :: b)).db.status
    rw [hrun1, ← P1.runFrom_append, hfinal, herr2]
  · -- some close event occurs in t1: everything after it preserves status
    obtain ⟨e, he_mem, he⟩ : ∃ e ∈ t1, (!P1.isCloseEvt e) = false := by
      by_contra hno
      push_neg at hno
      apply hc
      rw [List.all_eq_true]
      intro x hx
      cases hbx : (!P1.isCloseEvt x)
      · exact absurd hbx (hno x hx)
      · rfl
    have hclose : P1.isCloseEvt e = true := by simpa using he
    obtain ⟨c, rfl⟩ : ∃ c, e = P1.Event.close c := by
      cases e <;> simp [P1.isCloseEvt] at hclose
      case close c => exact ⟨c, rfl⟩
    obtain ⟨a, b, rfl⟩ := List.append_of_mem he_mem
    have hre : (a ++ P1.Event.close c :: b) ++ t2 =
        a ++ P1.Event.close c :: (b ++ t2) := by
      simp
    rw [hre] at hv
    have hnt : (b ++ t2).all P1.notTerminalEvt = true :=
      P1.validTrace_close_clause cfg.base a c (b ++ t2) hv
    have hnt2 : t2.all P1.notTerminalEvt = true := by
      rw [List.all_append, Bool.and_eq_true] at hnt
      exact hnt.2
    exact P1.runFrom_status_of_notTerminal cfg t2 _ hnt2

/-- Closed instance of the terminal-state stability theorem: after a
    failing close, a later simulation tick leaves the status `error`. -/
theorem c2_status_terminal_stable_witness :
    (P1.run { base := "d-1", tempFile := "d-1.mp4" }
        ([P1.Event.close (some 1)] ++ [P1.Event.tick 9000])).db.status =
      (P1.run { base := "d-1", tempFile := "d-1.mp4" } [P1.Event.close (some 1)]).db.status :=
  c2_status_terminal_stable { base := "d-1", tempFile := "d-1.mp4" } (by decide)
    [P1.Event.close (some 1)] [P1.Event.tick 9000] (by decide) (Or.inr (by decide))

/-- A sample per-session configuration (base name and requested output
    file) used to instantiate the lifecycle theorems. -/
def cfg1 : Cfg := { base := "d-1", tempFile := "d-1.mp4" }

/-- A sample completed session record used to instantiate the retrieval
    theorems. -/
def sessC : Sess :=
  { status := .completed, progress := 100, error := none, tempFile := "f.mp4",
    contentType := "video/mp4", filename := "download.mp4" }

/-- C1: the stored progress regresses.  `parseProgress` computes
    `Math.max` against `session.progress`, but that is the in-memory
    document captured at creation, which `updateOne` never refreshes: a
    chunk reporting 50% writes 50 to the store, and a following chunk
    reporting 30% writes 30, so a poller observes 50 then 30 for the
    same session. -/
theorem c1_progress_regression :
    (P1.run cfg1 [P1.Event.parse "[download] 50%" 1000]).db.progress = 50 ∧
    (P1.run cfg1 [P1.Event.parse "[download] 50%" 1000,
        P1.Event.parse "[download] 30%" 2000]).db.progress = 30 ∧
    (P1.run cfg1 [P1.Event.parse "[download] 50%" 1000,
        P1.Event.parse "[download] 30%" 2000]).db.progress <
      (P1.run cfg1 [P1.Event.parse "[download] 50%" 1000]).db.progress ∧
    P1.validTrace cfg1.base [P1.Event.parse "[download] 50%" 1000,
        P1.Event.parse "[download] 30%" 2000] = true := by
  refine ⟨by decide, by decide, by decide, by decide⟩

/-- C3 counterexample: the route.ts close handler marks the session
    `completed` whenever the exit code is 0, even though no artifact
    file exists on disk (the output directory is empty), contradicting
    the claim that completion requires a verified artifact. -/
theorem c3_counterexample :
    (RT.closeHandler (some 0) "t.mp4"
        { status := .downloading, progress := 40, error := none, tempFile := "t.mp4",
          contentType := "video/mp4", filename := "download.mp4" } []).1.status =
      .completed ∧
    (RT.closeHandler (some 0) "t.mp4"
        { status := .downloading, progress := 40, error := none, tempFile := "t.mp4",
          contentType := "video/mp4", filename := "download.mp4" } []).2 = [] := by
  exact ⟨rfl, rfl⟩

/-- C3 amended: in the part_001 variant the transition to `completed`
    happens exactly when the exit code is 0 or null AND the resolved
    artifact (exact requested path, else the first directory entry
    sharing the base name) is present, with progress forced to 100 and
    the artifact path updated to the file found; in the route.ts variant
    `completed` is decided by exit code 0 alone, with no disk
    verification and no artifact-path update. -/
theorem c3_completed_characterization (cfg : Cfg) (s : P1.LifeState) (code : Option Int)
    (db : Sess) (tf : String) (files : List String) :
    ((P1.closeHandler cfg code s).db.status = .completed ↔
      ((code = some 0 ∨ code = none) ∧ P1.actualTempFile cfg s.files ∈ s.files)) ∧
    ((code = some 0 ∨ code = none) ∧ P1.actualTempFile cfg s.files ∈ s.files →
      (P1.closeHandler cfg code s).db.progress = 100 ∧
      (P1.closeHandler cfg code s).db.tempFile = P1.actualTempFile cfg s.files) ∧
    ((RT.closeHandler code tf db files).1.status = .completed ↔ code = some 0) ∧
    ((RT.closeHandler code tf db files).1.tempFile = db.tempFile) := by
  unfold P1.closeHandler RT.closeHandler
  dsimp only
  refine ⟨?_, ?_, ?_, ?_⟩
  · split_ifs with h <;> simp_all
  · intro h
    rw [if_pos h]
    exact ⟨rfl, rfl⟩
  · split_ifs with h <;> simp_all
  · split_ifs <;> rfl

/-- Closed instance of the part_001 completion characterization: exit
    code 0 with the requested file present yields `completed`. -/
theorem c3_completed_characterization_witness :
    (P1.closeHandler cfg1 (some 0)
        { P1.initState cfg1 with files := ["d-1.mp4"] }).db.status = .completed :=
  (c3_completed_characterization cfg1 { P1.initState cfg1 with files := ["d-1.mp4"] }
      (some 0) sessC "t.mp4" []).1.mpr ⟨Or.inl rfl, by decide⟩

/-- C4 counterexample: the ceiling timer kills the process (`killed`),
    the kill makes `close` fire with a null exit code, and because a
    partial file sharing the base name is on disk, the close handler
    finalizes the session as `completed` — not `error` — over a
    realizable event sequence. -/
theorem c4_counterexample :
    (P1.run cfg1 [P1.Event.fsPut "d-1.mp4.part", P1.Event.timeoutFire,
        P1.Event.close none]).db.status = .completed ∧
    (P1.run cfg1 [P1.Event.fsPut "d-1.mp4.part", P1.Event.timeoutFire,
        P1.Event.close none]).killed = true ∧
    P1.validTrace cfg1.base [P1.Event.fsPut "d-1.mp4.part", P1.Event.timeoutFire,
        P1.Event.close none] = true := by
  refine ⟨by decide, by decide, by decide⟩

/-- C4 amended: the armed ceiling timer kills the process; the ensuing
    close (code null) always stops the simulation timer, transitions to
    `error` when no file sharing the base name exists, but to
    `completed` when such a (partial) file is present. -/
theorem c4_timeout_behaviour (cfg : Cfg) (s : P1.LifeState)
    (hb : sStarts cfg.tempFile cfg.base = true) (hto : s.timeoutActive = true) :
    (P1.step cfg s .timeoutFire).killed = true ∧
    (∀ s' : P1.LifeState, (P1.closeHandler cfg none s').timerActive = false) ∧
    (∀ s' : P1.LifeState, P1.NoBaseFiles cfg.base s'.files →
      (P1.closeHandler cfg none s').db.status = .error) ∧
    (∀ s' : P1.LifeState, P1.actualTempFile cfg s'.files ∈ s'.files →
      (P1.closeHandler cfg none s').db.status = .completed) := by
  refine ⟨?_, ?_, ?_, ?_⟩
  · simp [P1.step, hto]
  · intro s'
    unfold P1.closeHandler
    dsimp only
    split_ifs <;> rfl
  · intro s' hnb
    exact P1.closeHandler_error_of_noBase cfg none s' hb hnb
  · intro s' hmem
    unfold P1.closeHandler
    dsimp only
    rw [if_pos ⟨Or.inr rfl, hmem⟩]

/-- Closed instance of the timeout behaviour: with the timer armed the
    ceiling timer sets the kill flag, and a close with no matching file
    ends in `error`. -/
theorem c4_timeout_behaviour_witness :
    (P1.step cfg1 (P1.initState cfg1) .timeoutFire).killed = true ∧
    (P1.closeHandler cfg1 none (P1.initState cfg1)).db.status = .error :=
  ⟨(c4_timeout_behaviour cfg1 (P1.initState cfg1) (by decide) (by decide)).1,
    (c4_timeout_behaviour cfg1 (P1.initState cfg1) (by decide) (by decide)).2.2.1
      (P1.initState cfg1) (by intro f hf; simp [P1.initState] at hf)⟩

theorem lookupSess_eq_none_of_not_key (store : List (String × Sess)) (id : String)
    (h : id ∉ store.map Prod.fst) : lookupSess store id = none := by
  unfold lookupSess
  rw [List.find?_eq_none.mpr]
  · rfl
  · intro p hp hdec
    apply h
    rw [List.mem_map]
    refine ⟨p, hp, ?_⟩
    simpa using hdec

theorem lookupSess_eraseP (store : List (String × Sess)) (id : String)
    (hnd : (store.map Prod.fst).Nodup) :
    lookupSess (store.eraseP (fun p => p.1 = id)) id = none := by
  induction store with
  | nil => rfl
  | cons kv rest ih =>
    rw [List.map_cons, List.nodup_cons] at hnd
    by_cases hk : kv.1 = id
    · rw [List.eraseP_cons_of_pos (by simpa using hk)]
      apply lookupSess_eq_none_of_not_key
      rw [← hk]
      exact hnd.1
    · rw [List.eraseP_cons_of_neg (by simpa using hk)]
      unfold lookupSess
      rw [List.find?_cons_of_neg _ (by simpa using hk)]
      exact ih hnd.2

/-- C5 counterexample: the first retrieval's stream errors out; no
    cleanup runs, so a second retrieval for the same id succeeds with a
    fresh file stream instead of failing with session-not-found. -/
theorem c5_counterexample :
    (P1.getFile [("s1", sessC)] ["f.mp4"] "s1" .errored).1 =
      .fileStream "video/mp4" "download.mp4" ∧
    (P1.getFile [("s1", sessC)] ["f.mp4"] "s1" .errored).2.1 = [("s1", sessC)] ∧
    (P1.getFile (P1.getFile [("s1", sessC)] ["f.mp4"] "s1" .errored).2.1
        (P1.getFile [("s1", sessC)] ["f.mp4"] "s1" .errored).2.2 "s1" .ended).1 =
      .fileStream "video/mp4" "download.mp4" := by
  refine ⟨by decide, by decide, by decide⟩

/-- C5 amended: the artifact file and session record are deleted exactly
    when the stream finishes with a full read (the `end` event); after
    that, a second retrieval fails with session-not-found; when the
    stream errors or the client disconnects, nothing is deleted and a
    later retrieval proceeds as if none had happened. -/
theorem c5_retrieval_one_shot (store : List (String × Sess)) (files : List String)
    (id : String) (sess : Sess) (hnd : (store.map Prod.fst).Nodup)
    (hl : lookupSess store id = some sess) (hst : sess.status = .completed)
    (htf : sess.tempFile ≠ "") (hmem : sess.tempFile ∈ files) :
    (∀ o2 : StreamEnd, (P1.getFile (P1.getFile store files id .ended).2.1
        (P1.getFile store files id .ended).2.2 id o2).1 = .sessionNotFound) ∧
    (P1.getFile store files id .ended).2.2 = files.erase sess.tempFile ∧
    (P1.getFile store files id .errored).2.1 = store ∧
    (P1.getFile store files id .errored).2.2 = files ∧
    (P1.getFile store files id .disconnected).2.1 = store ∧
    (P1.getFile store files id .disconnected).2.2 = files := by
  have hget : P1.getFile store files id .ended =
      (.fileStream sess.contentType sess.filename, store.eraseP (fun p => p.1 = id),
        files.erase sess.tempFile) := by
    unfold P1.getFile
    rw [hl]
    dsimp only
    rw [if_pos ⟨hst, htf⟩, if_pos hmem]
  have hgete : P1.getFile store files id .errored =
      (.fileStream sess.contentType sess.filename, store, files) := by
    unfold P1.getFile
    rw [hl]
    dsimp only
    rw [if_pos ⟨hst, htf⟩, if_pos hmem]
  have hgetd : P1.getFile store files id .disconnected =
      (.fileStream sess.contentType sess.filename, store, files) := by
    unfold P1.getFile
    rw [hl]
    dsimp only
    rw [if_pos ⟨hst, htf⟩, if_pos hmem]
  refine ⟨?_, ?_, ?_, ?_, ?_, ?_⟩
  · intro o2
    rw [hget]
    dsimp only
    unfold P1.getFile
    rw [lookupSess_eraseP store id hnd]
  · rw [hget]
  · rw [hgete]
  · rw [hgete]
  · rw [hgetd]
  · rw [hgetd]

/-- Closed instance of the retrieval theorem: after a fully read stream,
    a second retrieval yields session-not-found. -/
theorem c5_retrieval_one_shot_witness :
    (P1.getFile (P1.getFile [("s1", sessC)] ["f.mp4"] "s1" .ended).2.1
        (P1.getFile [("s1", sessC)] ["f.mp4"] "s1" .ended).2.2 "s1" .ended).1 =
      .sessionNotFound :=
  (c5_retrieval_one_shot [("s1", sessC)] ["f.mp4"] "s1" sessC (by decide) (by decide)
      (by decide) (by decide) (by decide)).1 .ended

/-- C6 counterexample: on a nonzero exit with two partial files sharing
    the base name, part_001 deletes only the first match; the second
    file still matches the session's base name and remains in the
    output directory, over a realizable event sequence. -/
theorem c6_counterexample :
    (P1.run cfg1 [P1.Event.fsPut "d-1.f137.mp4", P1.Event.fsPut "d-1.f140.m4a",
        P1.Event.close (some 1)]).db.status = .error ∧
    "d-1.f140.m4a" ∈ (P1.run cfg1 [P1.Event.fsPut "d-1.f137.mp4",
        P1.Event.fsPut "d-1.f140.m4a", P1.Event.close (some 1)]).files ∧
    sStarts "d-1.f140.m4a" cfg1.base = true ∧
    P1.validTrace cfg1.base [P1.Event.fsPut "d-1.f137.mp4",
        P1.Event.fsPut "d-1.f140.m4a", P1.Event.close (some 1)] = true := by
  refine ⟨by decide, by decide, by decide, by decide⟩

/-- C6 amended: on a nonzero exit the session reaches `error` with the
    exit code captured in the error message, and the single resolved
    artifact file (exact requested path, else the first base-name match;
    in route.ts the exact path only) is absent afterwards; other files
    sharing the base name are not touched. -/
theorem c6_nonzero_exit (cfg : Cfg) (s : P1.LifeState) (code : Option Int) (db : Sess)
    (tf : String) (files : List String) (hnz : code ≠ some 0) (hnn : code ≠ none)
    (hnd : s.files.Nodup) (hfd : files.Nodup) :
    (P1.closeHandler cfg code s).db.status = .error ∧
    (P1.closeHandler cfg code s).db.error =
      some (P1.closeErrMsg code (decide (P1.actualTempFile cfg s.files ∈ s.files))) ∧
    P1.actualTempFile cfg s.files ∉ (P1.closeHandler cfg code s).files ∧
    (RT.closeHandler code tf db files).1.status = .error ∧
    (RT.closeHandler code tf db files).1.error =
      some ("Download failed with code " ++ P1.codeStr code) ∧
    tf ∉ (RT.closeHandler code tf db files).2 := by
  have hcond : ¬ ((code = some 0 ∨ code = none) ∧ P1.actualTempFile cfg s.files ∈ s.files) := by
    intro h
    rcases h.1 with h0 | h0
    · exact hnz h0
    · exact hnn h0
  refine ⟨?_, ?_, ?_, ?_, ?_, ?_⟩
  · unfold P1.closeHandler
    dsimp only
    rw [if_neg hcond]
  · unfold P1.closeHandler
    dsimp only
    rw [if_neg hcond]
  · unfold P1.closeHandler
    dsimp only
    rw [if_neg hcond]
    dsimp only
    split_ifs with h
    · exact hnd.not_mem_erase
    · exact h
  · unfold RT.closeHandler
    rw [if_neg hnz]
  · unfold RT.closeHandler
    rw [if_neg hnz]
  · unfold RT.closeHandler
    rw [if_neg hnz]
    dsimp only
    split_ifs with h
    · exact hfd.not_mem_erase
    · exact h

/-- Closed instance of the nonzero-exit theorem: exit code 1 with an
    empty directory finalizes the session as `error`. -/
theorem c6_nonzero_exit_witness :
    (P1.closeHandler cfg1 (some 1) (P1.initState cfg1)).db.status = .error :=
  (c6_nonzero_exit cfg1 (P1.initState cfg1) (some 1) sessC "t.mp4" []
      (by decide) (by decide) (by decide) (by decide)).1

/-- Event sequence of the C7 counterexample: a real 50% report, two
    simulation ticks during the following silence, then a
    `Merging formats` marker. -/
def traceC7 : List P1.Event :=
  [P1.Event.parse "[download] 50%" 1000, P1.Event.tick 7000,
    P1.Event.tick 9500, P1.Event.parse "Merging formats" 9600]

/-- C7 counterexample: the forced-completion write triggered by the
    `Merging formats` marker is a real progress update (it sets the
    stored progress to 100), yet it resets neither the fallback's step
    counter (still 2) nor its silence timer (still 1000, not 9600). -/
theorem c7_counterexample :
    (P1.run cfg1 traceC7).db.progress = 100 ∧
    (P1.run cfg1 traceC7).simulationStep = 2 ∧
    (P1.run cfg1 traceC7).lastRealProgress = 1000 ∧
    P1.validTrace cfg1.base traceC7 = true := by
  refine ⟨by decide, by decide, by decide, by decide⟩

/-- C7 amended: the simulation tick does nothing within 5 seconds of the
    last recorded real update; when it acts it increments the step
    counter by exactly one and can only write one of the checkpoints 25,
    50, 75, 90 — never pushing the stored progress above
    `max progress 90`; and a parser update through the match/staircase
    path (one that changes `session.progress`'s captured value) resets
    the step counter and silence timer, while the forced-completion
    writes do not pass through that reset. -/
theorem c7_simulation_behaviour (s : P1.LifeState) (out : String) (now : ℕ) :
    (now - s.lastRealProgress ≤ 5000 → P1.simulationTick now s = s) ∧
    ((P1.simulationTick now s).db.progress = s.db.progress ∨
      (P1.simulationTick now s).db.progress ∈ ([25, 50, 75, 90] : List ℚ)) ∧
    (P1.simulationTick now s).db.progress ≤ max s.db.progress 90 ∧
    (s.timerActive = true → 5000 < now - s.lastRealProgress →
      (P1.simulationTick now s).simulationStep = s.simulationStep + 1) ∧
    (P1.mainNewProgress out s.localProgress ≠ s.localProgress →
      (P1.parseProgress out now s).simulationStep = 0 ∧
      (P1.parseProgress out now s).lastRealProgress = now) := by
  refine ⟨?_, ?_, ?_, ?_, ?_⟩
  · intro hle
    unfold P1.simulationTick
    dsimp only
    split_ifs <;> first | rfl | omega
  · unfold P1.simulationTick
    dsimp only
    split_ifs <;> simp_all
  · unfold P1.simulationTick
    dsimp only
    split_ifs <;>
      first
        | exact le_max_left _ _
        | linarith
        | exact le_max_of_le_right (by norm_num)
  · intro hact hgt
    unfold P1.simulationTick
    dsimp only
    rw [if_pos hact, if_pos hgt]
    split_ifs <;> rfl
  · intro hne
    unfold P1.parseProgress
    dsimp only
    rw [if_pos hne]
    split_ifs <;> exact ⟨rfl, rfl⟩

/-- Closed instance of the simulation-behaviour theorem: a tick within
    the 5-second silence window leaves the state untouched, and a
    progress-changing chunk resets the step counter. -/
theorem c7_simulation_behaviour_witness :
    P1.simulationTick 3000 (P1.initState cfg1) = P1.initState cfg1 ∧
    (P1.parseProgress "[download] 50%" 1000 (P1.initState cfg1)).simulationStep = 0 :=
  ⟨(c7_simulation_behaviour (P1.initState cfg1) "x" 3000).1 (by decide),
    ((c7_simulation_behaviour (P1.initState cfg1) "[download] 50%" 1000).2.2.2.2
      (by decide)).1⟩

/-- C8 counterexample: with the durable store unavailable, a poll for a
    session that does exist in the in-memory fallback map still fails
    with an internal error, and a create request fails too — the
    fallback is not reached because `connectToDatabase` throws. -/
theorem c8_counterexample :
    RT.getDecision false [] [("s1", sessC)] (some "s1") (some "progress") =
      .internalError ∧
    RT.postDecision false "https://youtu.be/a" "720p" = .serverError := by
  exact ⟨rfl, rfl⟩

/-- C8 amended: when the durable store is unavailable
    `connectToDatabase` rejects, so every create and poll/retrieve
    request lands in the handler's catch and fails (500); the in-memory
    fallback backend would only be selected if `connectToDatabase`
    resolved null, which it never does. -/
theorem c8_store_unavailable (ms fs : List (String × Sess)) (id action : Option String)
    (url q : String) :
    RT.getDecision false ms fs id action = .internalError ∧
    RT.postDecision false url q = .serverError ∧
    (∀ a : Bool, connectToDatabase a ≠ .ok none) := by
  refine ⟨rfl, rfl, ?_⟩
  intro a
  cases a <;> simp [connectToDatabase]

/-- C10 counterexample: the empty string is a quality selector outside
    the six recognized tiers, yet the create-download operation rejects
    it (the missing-parameter check treats the falsy empty string as
    absent), in both route variants. -/
theorem c10_counterexample :
    RT.postDecision true "https://youtu.be/a" "" =
      .badRequest "URL and quality are required" ∧
    P1.postDecision "https://youtu.be/a" "" { duration := 100, filesize := none } =
      .badRequest "URL and quality are required" ∧
    "" ∉ (["2160p", "1440p", "1080p", "720p", "480p", "audio"] : List String) := by
  refine ⟨rfl, rfl, by decide⟩

/-- C10 amended: every nonempty quality selector outside the six
    recognized tiers is accepted: the format expression silently
    resolves to the unrestricted default (route.ts
    `bestvideo+bestaudio/best`, part_001 `best`), the content type to
    `video/mp4` and the suggested filename to `download.mp4`, exactly as
    for a video tier; only the empty (falsy) selector is rejected, by
    the missing-parameter validation. -/
theorem c10_unknown_selector (q url : String) (info : P1.VideoInfo)
    (hq : q ∉ (["2160p", "1440p", "1080p", "720p", "480p", "audio"] : List String))
    (hqe : q ≠ "") (hu : url ≠ "") :
    RT.postDecision true url q =
      .started "bestvideo+bestaudio/best" "video/mp4" "download.mp4" ∧
    P1.postDecision url q info = .started "best" "video/mp4" "download.mp4" := by
  simp only [List.mem_cons, List.not_mem_nil, or_false, not_or] at hq
  obtain ⟨h1, h2, h3, h4, h5, h6⟩ := hq
  constructor
  · simp [RT.postDecision, connectToDatabase, RT.formatString, contentTypeOf,
      fileExtensionOf, h1, h2, h3, h4, h5, h6, hqe, hu]
  · simp [P1.postDecision, P1.estimatedSize, P1.formatString, contentTypeOf,
      fileExtensionOf, maxFileSize, h1, h2, h3, h4, h5, h6, hqe, hu]

/-- Closed instance of the unknown-selector theorem at the selector
    `ultra`. -/
theorem c10_unknown_selector_witness :
    RT.postDecision true "https://youtu.be/a" "ultra" =
      .started "bestvideo+bestaudio/best" "video/mp4" "download.mp4" :=
  (c10_unknown_selector "ultra" "https://youtu.be/a" { duration := 0, filesize := none }
    (by decide) (by decide) (by decide)).1

namespace Meta

theorem mem_addUniq (l : List String) (x y : String) :
    x ∈ addUniq l y ↔ x ∈ l ∨ x = y := by
  unfold addUniq
  split_ifs with h
  · constructor
    · exact Or.inl
    · rintro (hx | rfl)
      · exact hx
      · exact h
  · simp [List.mem_append]

theorem nodup_addUniq (l : List String) (y : String) (h : l.Nodup) :
    (addUniq l y).Nodup := by
  unfold addUniq
  split_ifs with hy
  · exact h
  · simp [List.nodup_append, h, hy]

theorem mem_collect_aux (x : String) :
    ∀ (fs : List VFormat) (acc : List String),
      (x ∈ fs.foldl (fun acc f =>
          match formatTier f with
          | some t => addUniq acc t
          | none => acc) acc ↔
        x ∈ acc ∨ ∃ f ∈ fs, formatTier f = some x) := by
  intro fs
  induction fs with
  | nil => intro acc; simp
  | cons f fs ih =>
    intro acc
    rw [List.foldl_cons]
    cases hf : formatTier f with
    | none =>
      simp only [hf]
      rw [ih]
      simp [hf]
    | some t =>
      simp only [hf]
      rw [ih, mem_addUniq]
      simp only [List.mem_cons, hf]
      constructor
      · rintro ((hx | rfl) | hex)
        · exact Or.inl hx
        · exact Or.inr ⟨f, Or.inl rfl, hf⟩
        · obtain ⟨g, hg, hgx⟩ := hex
          exact Or.inr ⟨g, Or.inr hg, hgx⟩
      · rintro (hx | ⟨g, (rfl | hg), hgx⟩)
        · exact Or.inl (Or.inl hx)
        · rw [hf] at hgx
          injection hgx with hgx
          exact Or.inl (Or.inr hgx.symm)
        · exact Or.inr ⟨g, hg, hgx⟩

theorem mem_collectTiers (fs : List VFormat) (x : String) :
    x ∈ collectTiers fs ↔ ∃ f ∈ fs, formatTier f = some x := by
  unfold collectTiers
  rw [mem_collect_aux]
  simp

theorem nodup_collect_aux :
    ∀ (fs : List VFormat) (acc : List String), acc.Nodup →
      (fs.foldl (fun acc f =>
        match formatTier f with
        | some t => addUniq acc t
        | none => acc) acc).Nodup := by
  intro fs
  induction fs with
  | nil => intro acc h; exact h
  | cons f fs ih =>
    intro acc h
    rw [List.foldl_cons]
    cases hf : formatTier f with
    | none => simp only [hf]; exact ih acc h
    | some t => simp only [hf]; exact ih _ (nodup_addUniq acc t h)

theorem nodup_collectTiers (fs : List VFormat) : (collectTiers fs).Nodup :=
  nodup_collect_aux fs [] List.nodup_nil

end Meta

/-- C9: for every format list, `availableQualities` is deduplicated and
    sorted in the fixed order 2160p, 1440p, 1080p, 720p, 480p, audio; a
    tier label is present exactly when some format's height buckets to
    it; `audio` is present exactly when some format has a usable audio
    codec; and on the spec's worked example (heights 360, 480, 720, 1080
    with audio present) the result is exactly
    `["1080p", "720p", "480p", "audio"]`. -/
theorem c9_available_qualities (fs : List Meta.VFormat) :
    (Meta.availableQualities fs).Nodup ∧
    List.Sorted Meta.qOrder (Meta.availableQualities fs) ∧
    (∀ x, x ∈ Meta.availableQualities fs ↔
      ((∃ f ∈ fs, Meta.formatTier f = some x) ∨
        (x = "audio" ∧ fs.any Meta.hasAudioCodec = true))) ∧
    Meta.availableQualities Meta.demoFormats = ["1080p", "720p", "480p", "audio"] := by
  have hq : Meta.availableQualities fs = List.insertionSort Meta.qOrder
      (if fs.any Meta.hasAudioCodec then Meta.addUniq (Meta.collectTiers fs) "audio"
        else Meta.collectTiers fs) := rfl
  refine ⟨?_, ?_, ?_, by decide⟩
  · rw [hq]
    refine (List.perm_insertionSort Meta.qOrder _).nodup_iff.mpr ?_
    split_ifs
    · exact Meta.nodup_addUniq _ _ (Meta.nodup_collectTiers fs)
    · exact Meta.nodup_collectTiers fs
  · rw [hq]
    exact List.sorted_insertionSort Meta.qOrder _
  · intro x
    rw [hq, (List.perm_insertionSort Meta.qOrder _).mem_iff]
    split_ifs with ha
    · rw [Meta.mem_addUniq, Meta.mem_collectTiers]
      simp [ha]
    · rw [Meta.mem_collectTiers]
      simp [Bool.not_eq_true _ ▸ ha]
